import Mathlib

/-!
Verification of `alternate-assets` (main.go): a tool that rewrites image
files with an imperceptible brightness shift so their checksums change.

The Go source is shallowly embedded below:
* pure helpers (`supportedExtensions`, the two estimators, MD5/hex) become
  Lean functions;
* fallible I/O steps (open/stat/decode/create/encode/read) become explicit
  boolean outcome flags carried in probe/environment structures;
* the in-place file mutation of `processFile` becomes explicit state
  passing on the file's byte content;
* the directory walk becomes a recursion over an explicit directory-entry
  tree.
Machine integers: Go `int`/`int64` values here are always small and
non-negative, so they are modelled as `Nat`/`Int` without wrap-around;
MD5's 32-bit arithmetic is `Nat` masked to 32 bits at every step.
-/

deriving instance DecidableEq for Except

namespace AlternateAssets

/-- `strings.ToLower` restricted to what the tool compares: extensions.
Go lowercases each rune; `Char.toLower` agrees on ASCII, which is all the
supported-extension table contains. -/
def stringToLower (s : String) : String :=
  ⟨s.data.map Char.toLower⟩

/-- Helper for `filepathExt`: scans the reversed character list of the
path; stops at a path separator, returns the suffix from the last dot.
`acc` holds the characters already passed, in original order. -/
def extAux (acc : List Char) : List Char → List Char
  | [] => []
  | c :: rest =>
    if c = '/' then []
    else if c = '.' then '.' :: acc
    else extAux (c :: acc) rest

/-- Go `filepath.Ext`: the suffix beginning at the final dot in the final
slash-separated element of the path; empty if there is no dot. -/
def filepathExt (p : String) : String :=
  ⟨extAux [] p.data.reverse⟩

/-- The `supportedExtensions` map of main.go: membership of the already
lower-cased extension in the fixed five-element set. -/
def supportedExtensions (ext : String) : Bool :=
  ext = ".jpg" || ext = ".jpeg" || ext = ".png" || ext = ".gif" || ext = ".webp"

/-- Outcomes of the fallible steps `estimateJpegQuality` performs on its
file argument: `os.Open`, `file.Stat` (giving the size), and
`image.Decode` (giving the format name and the pixel dimensions). -/
structure FileProbe where
  openOk : Bool
  statOk : Bool
  size : Nat
  decodeOk : Bool
  format : String
  width : Nat
  height : Nat
deriving DecidableEq, Repr

/-- `estimateJpegQuality` of main.go. Any open/stat/decode failure, or a
decoded format other than "jpeg", yields the default 75. Otherwise the
bytes-per-pixel ratio `size / (width*height)` is mapped through the
ascending step table. The ratio is exact rational arithmetic standing in
for Go's `float64` division; when the pixel count is zero the float
division yields Inf (or NaN for 0/0), every `<` threshold test is false,
and the default branch 95 is taken, which the explicit guard reproduces. -/
def estimateJpegQuality (f : FileProbe) : Int :=
  if f.openOk = false then 75
  else if f.statOk = false then 75
  else if f.decodeOk = false ∨ f.format ≠ "jpeg" then 75
  else
    let pixelCount := f.width * f.height
    if pixelCount = 0 then 95
    else
      let bytesPerPixel : ℚ := (f.size : ℚ) / (pixelCount : ℚ)
      if bytesPerPixel < 0.5 then 60
      else if bytesPerPixel < 0.75 then 70
      else if bytesPerPixel < 1.0 then 80
      else if bytesPerPixel < 1.5 then 90
      else 95

/-- The four values of Go's `png.CompressionLevel`. -/
inductive CompressionLevel where
  | defaultCompression
  | noCompression
  | bestSpeed
  | bestCompression
deriving DecidableEq, Repr

/-- Outcomes of the fallible steps `estimatePngCompressionLevel` performs:
`os.Open` and `file.Stat` (giving the size). -/
structure FileStat where
  openOk : Bool
  statOk : Bool
  size : Nat
deriving DecidableEq, Repr

/-- `estimatePngCompressionLevel` of main.go: open/stat failure yields
`DefaultCompression`; otherwise the raw file size is mapped through the
ascending step table. -/
def estimatePngCompressionLevel (f : FileStat) : CompressionLevel :=
  if f.openOk = false then .defaultCompression
  else if f.statOk = false then .defaultCompression
  else if f.size < 10 * 1024 then .noCompression
  else if f.size < 100 * 1024 then .bestSpeed
  else if f.size < 1024 * 1024 then .defaultCompression
  else .bestCompression

/-- Outcome of the encode/save step of `processFile`: either it succeeds,
leaving `bytes` as the new file content, or it fails after having written
`written` bytes (possibly none) into the already-truncated file. -/
inductive EncodeOutcome where
  | ok (bytes : List Nat)
  | fail (written : List Nat)
deriving DecidableEq, Repr

/-- Outcomes of the fallible steps of `processFile`, in source order:
the original-checksum read, the `imaging.Open` decode, the `os.Create`
(which truncates the file in place), the encode, and the new-checksum
read. `jpegProbe`/`pngProbe` are what the respective estimator observes
when `processFile` calls it on the same path. -/
structure ProcEnv where
  checksumOk : Bool
  decodeOk : Bool
  createOk : Bool
  encode : EncodeOutcome
  newChecksumOk : Bool
  jpegProbe : FileProbe
  pngProbe : FileStat
deriving DecidableEq, Repr

/-- Result of `processFile`: the Go return value, the final byte content
of the file at `path`, and the encoder parameter actually passed to
`jpeg.Encode` (`jpegQualityUsed`) or to the `png.Encoder`
(`pngLevelUsed`), `none` when that encoder was not invoked. -/
structure ProcResult where
  res : Except String Unit
  content : List Nat
  jpegQualityUsed : Option Int
  pngLevelUsed : Option CompressionLevel
deriving Repr

/-- `processFile` of main.go as explicit state passing on the file's byte
content. Steps in source order: lower-cased extension check; original
checksum; format estimates; decode; `os.Create` (truncates the content);
per-extension encode (JPEG adjusts the estimated quality by ±1, PNG uses
the estimated compression level, other formats use `imaging.Save`);
new checksum. An encode failure leaves whatever the encoder wrote in the
truncated file. -/
def processFile (path : String) (env : ProcEnv) (content : List Nat) : ProcResult :=
  let ext := stringToLower (filepathExt path)
  if supportedExtensions ext = false then
    ⟨.error ("unsupported file extension: " ++ ext), content, none, none⟩
  else if env.checksumOk = false then
    ⟨.error "failed to calculate original checksum", content, none, none⟩
  else
    let jpegQuality : Int :=
      if ext = ".jpg" ∨ ext = ".jpeg" then estimateJpegQuality env.jpegProbe else 75
    let compressionLevel : CompressionLevel :=
      if ext = ".png" then estimatePngCompressionLevel env.pngProbe
      else .defaultCompression
    if env.decodeOk = false then
      ⟨.error "failed to decode image", content, none, none⟩
    else if env.createOk = false then
      ⟨.error "failed to create output file", content, none, none⟩
    else
      if ext = ".jpg" ∨ ext = ".jpeg" then
        let adjustedQuality : Int :=
          if jpegQuality > 90 then jpegQuality - 1 else jpegQuality + 1
        match env.encode with
        | .fail w => ⟨.error "failed to save image", w, some adjustedQuality, none⟩
        | .ok bytes =>
          if env.newChecksumOk = false then
            ⟨.error "failed to calculate new checksum", bytes, some adjustedQuality, none⟩
          else
            ⟨.ok (), bytes, some adjustedQuality, none⟩
      else if ext = ".png" then
        match env.encode with
        | .fail w => ⟨.error "failed to save image", w, none, some compressionLevel⟩
        | .ok bytes =>
          if env.newChecksumOk = false then
            ⟨.error "failed to calculate new checksum", bytes, none, some compressionLevel⟩
          else
            ⟨.ok (), bytes, none, some compressionLevel⟩
      else
        match env.encode with
        | .fail w => ⟨.error "failed to save image", w, none, none⟩
        | .ok bytes =>
          if env.newChecksumOk = false then
            ⟨.error "failed to calculate new checksum", bytes, none, none⟩
          else
            ⟨.ok (), bytes, none, none⟩

/-- A directory listing as `os.ReadDir` returns it: a sequence of
entries, each either a file (with the outcome of `processFile` on it
abstracted to a success flag) or a sub-directory carrying its own
listing and whether its `os.ReadDir` succeeds. -/
inductive Entries where
  | nil : Entries
  | fileCons (name : String) (procOk : Bool) (rest : Entries) : Entries
  | dirCons (name : String) (readable : Bool) (sub : Entries) (rest : Entries) : Entries
deriving DecidableEq, Repr

/-- Observable outcome of `processDirectory`: its Go return value, the
paths on which `processFile` was invoked (in order), and the messages
printed to stderr (in order). -/
structure WalkOut where
  res : Except String Unit
  attempted : List String
  errs : List String
deriving Repr

mutual

/-- `processDirectory` of main.go: return immediately when
`currentDepth > maxDepth`; fail when the directory cannot be read;
otherwise loop over the entries and return nil. -/
def processDirectory (path : String) (readable : Bool) (es : Entries)
    (currentDepth maxDepth : Int) : WalkOut :=
  if currentDepth > maxDepth then ⟨.ok (), [], []⟩
  else if readable = false then ⟨.error "failed to read directory", [], []⟩
  else
    let r := walkEntries path es currentDepth maxDepth
    ⟨.ok (), r.1, r.2⟩
termination_by (sizeOf es, 1)

/-- The entry loop of `processDirectory`: a sub-directory entry is
recursed into (depth + 1) only when `currentDepth < maxDepth`, with a
recursion error printed to stderr; a file entry with a supported
lower-cased extension is processed, with a processing error printed to
stderr; anything else is skipped. Each entry's contribution is
concatenated in order. -/
def walkEntries (path : String) (es : Entries) (currentDepth maxDepth : Int) :
    List String × List String :=
  match es with
  | .nil => ([], [])
  | .fileCons name procOk rest =>
    let cur : List String × List String :=
      if supportedExtensions (stringToLower (filepathExt name)) then
        if procOk then ([path ++ "/" ++ name], [])
        else ([path ++ "/" ++ name], ["Error processing file " ++ (path ++ "/" ++ name)])
      else ([], [])
    let r := walkEntries path rest currentDepth maxDepth
    (cur.1 ++ r.1, cur.2 ++ r.2)
  | .dirCons name readable sub rest =>
    let cur : List String × List String :=
      if currentDepth < maxDepth then
        let w := processDirectory (path ++ "/" ++ name) readable sub (currentDepth + 1) maxDepth
        match w.res with
        | .ok _ => (w.attempted, w.errs)
        | .error m =>
          (w.attempted,
           w.errs ++ ["Error processing directory " ++ (path ++ "/" ++ name) ++ ": " ++ m])
      else ([], [])
    let r := walkEntries path rest currentDepth maxDepth
    (cur.1 ++ r.1, cur.2 ++ r.2)
termination_by (sizeOf es, 0)

end

/-- Whether every sub-directory listing in the tree is readable. -/
def allReadable : Entries → Bool
  | .nil => true
  | .fileCons _ _ rest => allReadable rest
  | .dirCons _ readable sub rest => readable && allReadable sub && allReadable rest

/-- Written from the claim: the supported-extension files reachable from
a directory when descending through at most `budget` further directory
levels. -/
def specFilesWithinDepth (path : String) (es : Entries) (budget : Nat) : List String :=
  match es with
  | .nil => []
  | .fileCons name _ rest =>
    (if supportedExtensions (stringToLower (filepathExt name))
     then [path ++ "/" ++ name] else [])
      ++ specFilesWithinDepth path rest budget
  | .dirCons name _ sub rest =>
    (match budget with
     | 0 => []
     | b + 1 => specFilesWithinDepth (path ++ "/" ++ name) sub b)
      ++ specFilesWithinDepth path rest budget

/-- Written from the claim: the files attempted during a best-effort
walk — supported-extension files of visited readable directories,
regardless of whether processing them succeeds. -/
def specAttempted (path : String) (es : Entries) (budget : Nat) : List String :=
  match es with
  | .nil => []
  | .fileCons name _ rest =>
    (if supportedExtensions (stringToLower (filepathExt name))
     then [path ++ "/" ++ name] else [])
      ++ specAttempted path rest budget
  | .dirCons name readable sub rest =>
    (match budget with
     | 0 => []
     | b + 1 => if readable then specAttempted (path ++ "/" ++ name) sub b else [])
      ++ specAttempted path rest budget

/-- Written from the claim: the error lines a best-effort walk reports —
one per failing supported file and one per unreadable visited
sub-directory, none for unsupported entries. -/
def specReportedErrors (path : String) (es : Entries) (budget : Nat) : List String :=
  match es with
  | .nil => []
  | .fileCons name procOk rest =>
    (if supportedExtensions (stringToLower (filepathExt name)) ∧ procOk = false
     then ["Error processing file " ++ (path ++ "/" ++ name)] else [])
      ++ specReportedErrors path rest budget
  | .dirCons name readable sub rest =>
    (match budget with
     | 0 => []
     | b + 1 =>
       if readable then specReportedErrors (path ++ "/" ++ name) sub b
       else ["Error processing directory " ++ (path ++ "/" ++ name)
              ++ ": failed to read directory"])
      ++ specReportedErrors path rest budget

/-- A probe on which every fallible estimator step fails (file cannot be
opened). -/
def failProbe : FileProbe := ⟨false, false, 0, false, "", 0, 0⟩

/-- Environment for a run in which every I/O step succeeds; the PNG
estimator sees a 5000-byte file, the JPEG estimator a file it cannot
open. -/
def demoEnv : ProcEnv :=
  ⟨true, true, true, .ok [9, 9], true, failProbe, ⟨true, true, 5000⟩⟩

/-- Environment identical to `demoEnv` except that the encode step fails
after writing nothing into the truncated file. -/
def encodeFailEnv : ProcEnv :=
  ⟨true, true, true, .fail [], true, failProbe, ⟨true, true, 5000⟩⟩

/-- The 32-bit mask 2^32 - 1; Go's md5 works on uint32 words. -/
def mask32 : Nat := 0xffffffff

/-- 32-bit modular addition. -/
def add32 (a b : Nat) : Nat := (a + b) &&& mask32

/-- 32-bit left rotation by `n` (0 ≤ n < 32). -/
def rotl32 (x n : Nat) : Nat := ((x <<< n) ||| (x >>> (32 - n))) &&& mask32

/-- The 64 MD5 sine-table constants (RFC 1321), as used by Go's
`crypto/md5`. -/
def md5K : List Nat :=
  [0xd76aa478, 0xe8c7b756, 0x242070db, 0xc1bdceee,
   0xf57c0faf, 0x4787c62a, 0xa8304613, 0xfd469501,
   0x698098d8, 0x8b44f7af, 0xffff5bb1, 0x895cd7be,
   0x6b901122, 0xfd987193, 0xa679438e, 0x49b40821,
   0xf61e2562, 0xc040b340, 0x265e5a51, 0xe9b6c7aa,
   0xd62f105d, 0x02441453, 0xd8a1e681, 0xe7d3fbc8,
   0x21e1cde6, 0xc33707d6, 0xf4d50d87, 0x455a14ed,
   0xa9e3e905, 0xfcefa3f8, 0x676f02d9, 0x8d2a4c8a,
   0xfffa3942, 0x8771f681, 0x6d9d6122, 0xfde5380c,
   0xa4beea44, 0x4bdecfa9, 0xf6bb4b60, 0xbebfbc70,
   0x289b7ec6, 0xeaa127fa, 0xd4ef3085, 0x04881d05,
   0xd9d4d039, 0xe6db99e5, 0x1fa27cf8, 0xc4ac5665,
   0xf4292244, 0x432aff97, 0xab9423a7, 0xfc93a039,
   0x655b59c3, 0x8f0ccc92, 0xffeff47d, 0x85845dd1,
   0x6fa87e4f, 0xfe2ce6e0, 0xa3014314, 0x4e0811a1,
   0xf7537e82, 0xbd3af235, 0x2ad7d2bb, 0xeb86d391]

/-- The 64 MD5 per-round left-rotation amounts. -/
def md5S : List Nat :=
  [7, 12, 17, 22, 7, 12, 17, 22, 7, 12, 17, 22, 7, 12, 17, 22,
   5, 9, 14, 20, 5, 9, 14, 20, 5, 9, 14, 20, 5, 9, 14, 20,
   4, 11, 16, 23, 4, 11, 16, 23, 4, 11, 16, 23, 4, 11, 16, 23,
   6, 10, 15, 21, 6, 10, 15, 21, 6, 10, 15, 21, 6, 10, 15, 21]

/-- Nonlinear function value and message-word index of MD5 round `i`. -/
def md5FG (b c d i : Nat) : Nat × Nat :=
  if i < 16 then ((b &&& c) ||| ((mask32 ^^^ b) &&& d), i)
  else if i < 32 then ((d &&& b) ||| ((mask32 ^^^ d) &&& c), (5 * i + 1) % 16)
  else if i < 48 then (b ^^^ c ^^^ d, (3 * i + 5) % 16)
  else (c ^^^ (b ||| (mask32 ^^^ d)), (7 * i) % 16)

/-- Little-endian 32-bit word `g` of a 64-byte chunk. -/
def leWord (chunk : List Nat) (g : Nat) : Nat :=
  chunk.getD (4 * g) 0 + 256 * chunk.getD (4 * g + 1) 0
    + 65536 * chunk.getD (4 * g + 2) 0 + 16777216 * chunk.getD (4 * g + 3) 0

/-- One MD5 round on the (a, b, c, d) state. -/
def md5Step (chunk : List Nat) (st : Nat × Nat × Nat × Nat) (i : Nat) :
    Nat × Nat × Nat × Nat :=
  let fg := md5FG st.2.1 st.2.2.1 st.2.2.2 i
  let tmp := add32 st.2.1
    (rotl32 ((st.1 + fg.1 + md5K.getD i 0 + leWord chunk fg.2) &&& mask32) (md5S.getD i 0))
  (st.2.2.2, tmp, st.2.1, st.2.2.1)

/-- MD5 compression of one 64-byte chunk into the running state. -/
def md5Compress (h : Nat × Nat × Nat × Nat) (chunk : List Nat) :
    Nat × Nat × Nat × Nat :=
  let f := (List.range 64).foldl (md5Step chunk) h
  (add32 h.1 f.1, add32 h.2.1 f.2.1, add32 h.2.2.1 f.2.2.1, add32 h.2.2.2 f.2.2.2)

/-- A 64-bit value as eight little-endian bytes. -/
def toLe8 (x : Nat) : List Nat :=
  [x % 256, x / 256 % 256, x / 65536 % 256, x / 16777216 % 256,
   x / 4294967296 % 256, x / 1099511627776 % 256,
   x / 281474976710656 % 256, x / 72057594037927936 % 256]

/-- A 32-bit word as four little-endian bytes. -/
def toLe4 (x : Nat) : List Nat :=
  [x % 256, x / 256 % 256, x / 65536 % 256, x / 16777216 % 256]

/-- MD5 padding: a 0x80 byte, zeros to 56 mod 64, then the bit length as
a 64-bit little-endian value. -/
def md5Pad (msg : List Nat) : List Nat :=
  let len := msg.length
  let zeros := (55 + 64 - len % 64) % 64
  msg ++ [128] ++ List.replicate zeros 0 ++ toLe8 ((len * 8) % 18446744073709551616)

/-- The 16-byte MD5 digest of a byte sequence. -/
def md5Digest (msg : List Nat) : List Nat :=
  let padded := md5Pad msg
  let f := (List.range (padded.length / 64)).foldl
    (fun h i => md5Compress h ((padded.drop (64 * i)).take 64))
    (0x67452301, 0xefcdab89, 0x98badcfe, 0x10325476)
  toLe4 f.1 ++ toLe4 f.2.1 ++ toLe4 f.2.2.1 ++ toLe4 f.2.2.2

/-- Go `encoding/hex`'s digit table lookup: 0-9 then a-f. -/
def hexDigit (n : Nat) : Char :=
  if n < 10 then Char.ofNat (48 + n) else Char.ofNat (87 + n)

/-- Go `hex.EncodeToString`: each byte becomes the digit of its high
nibble then the digit of its low nibble. -/
def hexEncode (bs : List Nat) : String :=
  ⟨bs.foldr (fun b acc => hexDigit (b / 16) :: hexDigit (b % 16) :: acc) []⟩

/-- Whether a character is a lower-case hexadecimal digit. -/
def isHexChar (c : Char) : Bool :=
  "0123456789abcdef".data.contains c

/-- `calculateFileChecksum` of main.go: open the file, stream its bytes
through MD5, and hex-encode the digest; an open or read failure
propagates as an error. -/
def calculateFileChecksum (openOk readOk : Bool) (content : List Nat) :
    Except String String :=
  if openOk = false then .error "open failed"
  else if readOk = false then .error "read failed"
  else .ok (hexEncode (md5Digest content))

/-- A fully readable, fully succeeding directory tree:
`sub/` (holding `d.png` and `deep/e.png`), `a.jpg`, `c.txt`. -/
def demoTree : Entries :=
  .dirCons "sub" true
    (.fileCons "d.png" true (.dirCons "deep" true (.fileCons "e.png" true .nil) .nil))
    (.fileCons "a.jpg" true (.fileCons "c.txt" true .nil))

/-- A tree exercising the error paths: a failing `bad.jpg`, an
unreadable directory `locked/`, an unsupported `skip.txt`, and then a
succeeding `good.png`. -/
def faultTree : Entries :=
  .fileCons "bad.jpg" false
    (.dirCons "locked" false .nil
      (.fileCons "skip.txt" true
        (.fileCons "good.png" true .nil)))

/-- The JPEG quality estimate always lies in {60, 70, 75, 80, 90, 95}:
75 on any failure, a table value on success. -/
lemma estimateJpegQuality_mem (f : FileProbe) :
    estimateJpegQuality f ∈ ([60, 70, 75, 80, 90, 95] : List Int) := by
  simp only [estimateJpegQuality, List.mem_cons, List.not_mem_nil, or_false]
  split_ifs <;> simp

/-- C4. The JPEG quality estimator returns the default 75 on any failure
to open, stat or decode, or when the decoded format is not "jpeg";
otherwise it maps the bytes-per-pixel ratio (file size divided by decoded
pixel count) through the ascending step table <0.5 → 60, <0.75 → 70,
<1.0 → 80, <1.5 → 90, else 95, yielding a value in {60, 70, 80, 90, 95}. -/
theorem estimateJpegQuality_table (f : FileProbe) :
    ((f.openOk = false ∨ f.statOk = false ∨ f.decodeOk = false ∨ f.format ≠ "jpeg") →
      estimateJpegQuality f = 75)
    ∧ (f.openOk = true → f.statOk = true → f.decodeOk = true → f.format = "jpeg" →
        0 < f.width * f.height →
        (estimateJpegQuality f =
          (if ((f.size : ℚ) / ((f.width * f.height : Nat) : ℚ)) < 0.5 then 60
           else if ((f.size : ℚ) / ((f.width * f.height : Nat) : ℚ)) < 0.75 then 70
           else if ((f.size : ℚ) / ((f.width * f.height : Nat) : ℚ)) < 1.0 then 80
           else if ((f.size : ℚ) / ((f.width * f.height : Nat) : ℚ)) < 1.5 then 90
           else 95)
        ∧ estimateJpegQuality f ∈ ([60, 70, 80, 90, 95] : List Int))) := by
  constructor
  · intro h
    unfold estimateJpegQuality
    split_ifs with h1 h2 h3 <;> try rfl
    all_goals
      simp only [Bool.not_eq_false] at h1 h2
      rcases h with h | h | h | h <;> simp_all
  · intro ho hs hd hf hp
    have hp' : f.width * f.height ≠ 0 := Nat.pos_iff_ne_zero.mp hp
    unfold estimateJpegQuality
    simp only [ho, hs, hd, hf, hp', Bool.true_eq_false, if_false, ne_eq,
      not_true_eq_false, or_self, if_neg, ite_false]
    refine ⟨by trivial, ?_⟩
    simp only [List.mem_cons, List.not_mem_nil, or_false]
    split_ifs <;> simp

/-- C4 witness: a format mismatch yields the default 75, and a successful
decode yields a table value. -/
theorem estimateJpegQuality_table_witness :
    estimateJpegQuality ⟨true, true, 150, true, "png", 10, 20⟩ = 75
    ∧ estimateJpegQuality ⟨true, true, 100, true, "jpeg", 10, 20⟩ ∈
        ([60, 70, 80, 90, 95] : List Int) :=
  ⟨(estimateJpegQuality_table _).1 (Or.inr (Or.inr (Or.inr (by decide)))),
   ((estimateJpegQuality_table _).2 rfl rfl rfl rfl (by decide)).2⟩

/-- C5. The PNG compression-level estimator returns DefaultCompression on
any failure to open or stat, and otherwise maps the raw file size through
the ascending step table: <10KB → NoCompression, <100KB → BestSpeed,
<1MB → DefaultCompression, else BestCompression. -/
theorem estimatePngCompressionLevel_table (f : FileStat) :
    ((f.openOk = false ∨ f.statOk = false) →
      estimatePngCompressionLevel f = .defaultCompression)
    ∧ (f.openOk = true → f.statOk = true →
        (f.size < 10 * 1024 → estimatePngCompressionLevel f = .noCompression)
        ∧ (10 * 1024 ≤ f.size → f.size < 100 * 1024 →
            estimatePngCompressionLevel f = .bestSpeed)
        ∧ (100 * 1024 ≤ f.size → f.size < 1024 * 1024 →
            estimatePngCompressionLevel f = .defaultCompression)
        ∧ (1024 * 1024 ≤ f.size → estimatePngCompressionLevel f = .bestCompression)) := by
  unfold estimatePngCompressionLevel
  constructor
  · intro h
    rcases h with h | h <;> simp [h]
  · intro ho hs
    refine ⟨fun h1 => ?_, fun h1 h2 => ?_, fun h1 h2 => ?_, fun h1 => ?_⟩ <;>
      split_ifs <;> simp_all <;> omega

/-- C5 witness: the four size bands and the stat-failure fallback, at
concrete sizes. -/
theorem estimatePngCompressionLevel_table_witness :
    estimatePngCompressionLevel ⟨false, false, 0⟩ = .defaultCompression
    ∧ estimatePngCompressionLevel ⟨true, true, 5000⟩ = .noCompression
    ∧ estimatePngCompressionLevel ⟨true, true, 50000⟩ = .bestSpeed
    ∧ estimatePngCompressionLevel ⟨true, true, 500000⟩ = .defaultCompression
    ∧ estimatePngCompressionLevel ⟨true, true, 5000000⟩ = .bestCompression :=
  ⟨(estimatePngCompressionLevel_table _).1 (Or.inl rfl),
   ((estimatePngCompressionLevel_table _).2 rfl rfl).1 (by decide),
   ((estimatePngCompressionLevel_table _).2 rfl rfl).2.1 (by decide) (by decide),
   ((estimatePngCompressionLevel_table _).2 rfl rfl).2.2.1 (by decide) (by decide),
   ((estimatePngCompressionLevel_table _).2 rfl rfl).2.2.2 (by decide)⟩

/-- C6. Invoking `processFile` on a path whose lower-cased extension is
outside the supported set returns an unsupported-extension error at once:
the result does not depend on any I/O outcome in `env` (so no checksum or
mutation is attempted) and the file's byte content is unchanged. -/
theorem processFile_unsupported_ext (path : String) (env : ProcEnv) (content : List Nat)
    (h : supportedExtensions (stringToLower (filepathExt path)) = false) :
    processFile path env content =
      ⟨.error ("unsupported file extension: " ++ stringToLower (filepathExt path)),
        content, none, none⟩ := by
  unfold processFile
  simp [h]

/-- C6 witness: a `.txt` file is rejected with its bytes intact, in an
environment where every I/O step would have succeeded. -/
theorem processFile_unsupported_ext_witness :
    processFile "c.txt" demoEnv [1, 2] =
      ⟨.error "unsupported file extension: .txt", [1, 2], none, none⟩ :=
  processFile_unsupported_ext "c.txt" demoEnv [1, 2] (by decide)

/-- C3. For a JPEG file that reaches the encode step, the quality passed
to the encoder is the estimate minus 1 when the estimate exceeds 90 and
the estimate plus 1 otherwise, and hence always differs from the
estimate. -/
theorem processFile_jpeg_quality_perturbed (path : String) (env : ProcEnv) (content : List Nat)
    (hext : stringToLower (filepathExt path) = ".jpg" ∨ stringToLower (filepathExt path) = ".jpeg")
    (hc : env.checksumOk = true) (hd : env.decodeOk = true) (hcr : env.createOk = true) :
    (processFile path env content).jpegQualityUsed =
      some (if estimateJpegQuality env.jpegProbe > 90
            then estimateJpegQuality env.jpegProbe - 1
            else estimateJpegQuality env.jpegProbe + 1)
    ∧ (processFile path env content).jpegQualityUsed ≠ some (estimateJpegQuality env.jpegProbe) := by
  have hq : ∀ q : Int, (if q > 90 then q - 1 else q + 1) ≠ q := by
    intro q; split_ifs <;> omega
  unfold processFile
  rcases hext with h | h <;>
    · rw [h]
      cases henc : env.encode <;> cases hnew : env.newChecksumOk <;>
        simp [supportedExtensions, hc, hd, hcr, henc, hnew,
          hq (estimateJpegQuality env.jpegProbe)]

/-- C3 witness: with an estimate of 75 (estimator failure default), the
encoder receives quality 76 ≠ 75. -/
theorem processFile_jpeg_quality_perturbed_witness :
    (processFile "a.jpg" demoEnv [1, 2]).jpegQualityUsed =
      some (if estimateJpegQuality demoEnv.jpegProbe > 90
            then estimateJpegQuality demoEnv.jpegProbe - 1
            else estimateJpegQuality demoEnv.jpegProbe + 1)
    ∧ (processFile "a.jpg" demoEnv [1, 2]).jpegQualityUsed ≠
        some (estimateJpegQuality demoEnv.jpegProbe)
    ∧ (processFile "a.jpg" demoEnv [1, 2]).jpegQualityUsed = some 76 :=
  ⟨(processFile_jpeg_quality_perturbed "a.jpg" demoEnv [1, 2] (Or.inl (by decide))
      rfl rfl rfl).1,
   (processFile_jpeg_quality_perturbed "a.jpg" demoEnv [1, 2] (Or.inl (by decide))
      rfl rfl rfl).2,
   by decide⟩

/-- In every run of `processFile`, either no quality is passed to the
JPEG encoder, or the quality passed is the ±1-adjusted estimate. -/
lemma processFile_jpegQualityUsed_cases (path : String) (env : ProcEnv) (content : List Nat) :
    (processFile path env content).jpegQualityUsed = none
    ∨ (processFile path env content).jpegQualityUsed =
        some (if estimateJpegQuality env.jpegProbe > 90
              then estimateJpegQuality env.jpegProbe - 1
              else estimateJpegQuality env.jpegProbe + 1) := by
  unfold processFile
  by_cases h1 : supportedExtensions (stringToLower (filepathExt path)) = false
  · left; simp [h1]
  · by_cases h2 : env.checksumOk = false
    · left; simp [h1, h2]
    · by_cases h3 : env.decodeOk = false
      · left; simp [h1, h2, h3]
      · by_cases h4 : env.createOk = false
        · left; simp [h1, h2, h3, h4]
        · by_cases h5 : stringToLower (filepathExt path) = ".jpg"
              ∨ stringToLower (filepathExt path) = ".jpeg"
          · right
            cases henc : env.encode <;> cases hnew : env.newChecksumOk <;>
              simp [h1, h2, h3, h4, h5, henc, hnew]
          · left
            by_cases h6 : stringToLower (filepathExt path) = ".png"
            · cases henc : env.encode <;> cases hnew : env.newChecksumOk <;>
                simp [h1, h2, h3, h4, h5, h6, henc, hnew, supportedExtensions]
            · cases henc : env.encode <;> cases hnew : env.newChecksumOk <;>
                simp [h1, h2, h3, h4, h5, h6, henc, hnew]

/-- C9. Whenever a quality value is actually passed to the JPEG encoder,
it lies in {61, 71, 76, 81, 91, 94}, and in particular within the
encoder's valid 1..100 range. -/
theorem processFile_jpeg_quality_range (path : String) (env : ProcEnv) (content : List Nat)
    (a : Int) (h : (processFile path env content).jpegQualityUsed = some a) :
    a ∈ ([61, 71, 76, 81, 91, 94] : List Int) ∧ 1 ≤ a ∧ a ≤ 100 := by
  have hmem := estimateJpegQuality_mem env.jpegProbe
  rcases processFile_jpegQualityUsed_cases path env content with hcase | hcase
  · rw [hcase] at h; exact absurd h (by simp)
  · rw [hcase] at h
    have key : a = (if estimateJpegQuality env.jpegProbe > 90
                    then estimateJpegQuality env.jpegProbe - 1
                    else estimateJpegQuality env.jpegProbe + 1) := by
      simpa using h.symm
    subst key
    simp only [List.mem_cons, List.not_mem_nil, or_false] at hmem ⊢
    rcases hmem with h | h | h | h | h | h <;> rw [h] <;> norm_num

/-- C9 witness: the quality 76 actually passed for a JPEG with estimate
75 lies in the allowed set and in 1..100. -/
theorem processFile_jpeg_quality_range_witness :
    (76 : Int) ∈ ([61, 71, 76, 81, 91, 94] : List Int) ∧ (1 : Int) ≤ 76 ∧ (76 : Int) ≤ 100 :=
  processFile_jpeg_quality_range "a.jpg" demoEnv [1, 2] 76 (by decide)

/-- C1 counterexample: a 5000-byte PNG file is estimated at NoCompression
and the encoder is constructed with exactly that level, not
BestCompression — the PNG branch does not re-encode at best compression
regardless of the estimate. -/
theorem processFile_png_best_compression_cex :
    estimatePngCompressionLevel demoEnv.pngProbe = .noCompression
    ∧ (processFile "a.png" demoEnv [1, 2]).pngLevelUsed = some .noCompression
    ∧ (processFile "a.png" demoEnv [1, 2]).pngLevelUsed ≠ some .bestCompression := by
  refine ⟨by decide, by decide, by decide⟩

/-- C1 (amended). For every PNG file that reaches the encode step, the
compression level passed to the PNG encoder is exactly the level produced
by the Format Estimator for that file, with no perturbation. -/
theorem processFile_png_uses_estimate (path : String) (env : ProcEnv) (content : List Nat)
    (hext : stringToLower (filepathExt path) = ".png")
    (hc : env.checksumOk = true) (hd : env.decodeOk = true) (hcr : env.createOk = true) :
    (processFile path env content).pngLevelUsed =
      some (estimatePngCompressionLevel env.pngProbe) := by
  unfold processFile
  rw [hext]
  cases henc : env.encode <;> cases hnew : env.newChecksumOk <;>
    simp [supportedExtensions, hc, hd, hcr, henc, hnew]

/-- C1 (amended) witness: the 5000-byte PNG is encoded at the estimated
NoCompression level. -/
theorem processFile_png_uses_estimate_witness :
    (processFile "a.png" demoEnv [1, 2]).pngLevelUsed =
      some (estimatePngCompressionLevel demoEnv.pngProbe) :=
  processFile_png_uses_estimate "a.png" demoEnv [1, 2] (by decide) rfl rfl rfl

/-- C10. `processFile` is not atomic on encode failure: once `os.Create`
has truncated the original file in place, a failing encode makes
`processFile` return an error while the file holds only whatever the
encoder wrote before failing — the original content is not restored. -/
theorem processFile_encode_failure_destroys (path : String) (env : ProcEnv)
    (content w : List Nat)
    (hsupp : supportedExtensions (stringToLower (filepathExt path)) = true)
    (hc : env.checksumOk = true) (hd : env.decodeOk = true) (hcr : env.createOk = true)
    (henc : env.encode = .fail w) :
    (processFile path env content).res = .error "failed to save image"
    ∧ (processFile path env content).content = w := by
  unfold processFile
  by_cases h1 : stringToLower (filepathExt path) = ".jpg"
      ∨ stringToLower (filepathExt path) = ".jpeg"
  · simp_all
  · by_cases h2 : stringToLower (filepathExt path) = ".png" <;> simp_all

/-- C10 witness: a JPEG whose encode fails after writing nothing is left
empty — the original two bytes are gone — and the run reports an error. -/
theorem processFile_encode_failure_destroys_witness :
    ((processFile "a.jpg" encodeFailEnv [1, 2]).res = .error "failed to save image"
      ∧ (processFile "a.jpg" encodeFailEnv [1, 2]).content = [])
    ∧ (processFile "a.jpg" encodeFailEnv [1, 2]).content ≠ [1, 2] :=
  ⟨processFile_encode_failure_destroys "a.jpg" encodeFailEnv [1, 2] []
      (by decide) rfl rfl rfl rfl,
   by decide⟩

/-- The entry loop computes exactly the attempted-file list and the
error report predicted from the claims' depth-bounded reading, for any
current depth not exceeding the maximum. -/
lemma walkEntries_eq_spec :
    ∀ (es : Entries) (path : String) (cd md : Int), cd ≤ md →
    walkEntries path es cd md =
      (specAttempted path es (md - cd).toNat,
       specReportedErrors path es (md - cd).toNat) := by
  intro es
  induction es with
  | nil =>
    intro path cd md h
    simp [walkEntries, specAttempted, specReportedErrors]
  | fileCons name procOk rest ih =>
    intro path cd md h
    simp only [walkEntries, specAttempted, specReportedErrors, ih path cd md h]
    by_cases hs : supportedExtensions (stringToLower (filepathExt name)) = true <;>
      cases procOk <;> simp [hs]
  | dirCons name readable sub rest ihsub ihrest =>
    intro path cd md h
    by_cases hlt : cd < md
    · have hb : (md - cd).toNat = (md - (cd + 1)).toNat + 1 := by omega
      have hguard : ¬ (cd + 1 > md) := by omega
      simp only [walkEntries, specAttempted, specReportedErrors, hb,
        ihrest path cd md h, processDirectory, hguard, if_false, ite_false, if_pos hlt]
      cases readable with
      | false =>
        simp [ihsub (path ++ "/" ++ name) (cd + 1) md (by omega), String.append_assoc]
      | true =>
        have hsub := ihsub (path ++ "/" ++ name) (cd + 1) md (by omega)
        simp only [String.append_assoc] at hsub
        simp [hsub, String.append_assoc]
    · have hb : (md - cd).toNat = 0 := by omega
      simp [walkEntries, specAttempted, specReportedErrors, hb,
        ihrest path cd md h, hlt]

/-- Under an all-readable tree, the attempted-file list of the
best-effort walk is exactly the depth-bounded supported-file list. -/
lemma specAttempted_eq_files :
    ∀ (es : Entries) (path : String) (budget : Nat), allReadable es = true →
    specAttempted path es budget = specFilesWithinDepth path es budget := by
  intro es
  induction es with
  | nil => intro path budget h; rfl
  | fileCons name procOk rest ih =>
    intro path budget h
    simp only [allReadable] at h
    simp [specAttempted, specFilesWithinDepth, ih path budget h]
  | dirCons name readable sub rest ihsub ihrest =>
    intro path budget h
    simp only [allReadable, Bool.and_eq_true] at h
    obtain ⟨⟨hr, hsub⟩, hrest⟩ := h
    cases budget with
    | zero => simp [specAttempted, specFilesWithinDepth, ihrest path 0 hrest]
    | succ b =>
      simp [specAttempted, specFilesWithinDepth, hr,
        ihsub (path ++ "/" ++ name) b hsub, ihrest path (b + 1) hrest]

/-- C2. A walk started at depth 0 with maximum depth N ≥ 0 over an
all-readable tree attempts exactly the supported files in directories at
levels 0..N (descending one level per recursion only while the current
depth is strictly below N), and with maximum depth 0 it attempts exactly
the root directory's immediate supported files. -/
theorem processDirectory_depth_bound (es : Entries) (path : String) (N : Int)
    (h0 : 0 ≤ N) (hr : allReadable es = true) :
    (processDirectory path true es 0 N).attempted = specFilesWithinDepth path es N.toNat
    ∧ (processDirectory path true es 0 0).attempted = specFilesWithinDepth path es 0 := by
  have core : ∀ M : Int, 0 ≤ M →
      (processDirectory path true es 0 M).attempted = specFilesWithinDepth path es M.toNat := by
    intro M hM
    have hguard : ¬ ((0 : Int) > M) := by omega
    simp only [processDirectory, hguard, if_false, ite_false,
      walkEntries_eq_spec es path 0 M hM]
    simpa using specAttempted_eq_files es path (M - 0).toNat hr
  exact ⟨core N h0, core 0 le_rfl⟩

/-- C2 witness: with maximum depth 1, the walk attempts `sub/d.png` and
`a.jpg`, skips `c.txt`, and does not descend into `sub/deep`. -/
theorem processDirectory_depth_bound_witness :
    ((processDirectory "r" true demoTree 0 1).attempted =
        specFilesWithinDepth "r" demoTree (1 : Int).toNat)
    ∧ (processDirectory "r" true demoTree 0 1).attempted = ["r/sub/d.png", "r/a.jpg"] :=
  ⟨(processDirectory_depth_bound demoTree "r" 1 (by decide) (by decide)).1,
   ((processDirectory_depth_bound demoTree "r" 1 (by decide) (by decide)).1).trans (by decide)⟩

/-- C7. A walk over a readable root directory always returns nil,
attempts every supported file of every visited readable directory —
whether or not its processing, a sibling's processing, or a
sub-directory's read fails — and reports exactly one stderr line for
each failing supported file and each unreadable visited sub-directory,
none for entries with unsupported extensions. -/
theorem processDirectory_best_effort (es : Entries) (path : String) (N : Int)
    (h0 : 0 ≤ N) :
    (processDirectory path true es 0 N).res = .ok ()
    ∧ (processDirectory path true es 0 N).attempted = specAttempted path es N.toNat
    ∧ (processDirectory path true es 0 N).errs = specReportedErrors path es N.toNat := by
  have hguard : ¬ ((0 : Int) > N) := by omega
  simp [processDirectory, hguard, walkEntries_eq_spec es path 0 N h0]

/-- C7 witness: after `bad.jpg` fails and `locked/` cannot be read, the
sibling `good.png` is still attempted, `skip.txt` produces no error, the
two failures are reported, and the walk returns nil. -/
theorem processDirectory_best_effort_witness :
    (processDirectory "r" true faultTree 0 1).res = .ok ()
    ∧ (processDirectory "r" true faultTree 0 1).attempted = ["r/bad.jpg", "r/good.png"]
    ∧ (processDirectory "r" true faultTree 0 1).errs =
        ["Error processing file r/bad.jpg",
         "Error processing directory r/locked: failed to read directory"] :=
  ⟨(processDirectory_best_effort faultTree "r" 1 (by decide)).1,
   ((processDirectory_best_effort faultTree "r" 1 (by decide)).2.1).trans (by decide),
   ((processDirectory_best_effort faultTree "r" 1 (by decide)).2.2).trans (by decide)⟩

set_option maxRecDepth 10000 in
/-- The embedded MD5 agrees with RFC 1321 on the empty message. -/
lemma md5Digest_rfc_empty :
    hexEncode (md5Digest []) = "d41d8cd98f00b204e9800998ecf8427e" := by
  decide

set_option maxRecDepth 10000 in
/-- The embedded MD5 agrees with RFC 1321 on the message "abc". -/
lemma md5Digest_rfc_abc :
    hexEncode (md5Digest [97, 98, 99]) = "900150983cd24fb0d6963f7d28e17f72" := by
  decide

/-- The MD5 digest is always exactly 16 bytes. -/
lemma md5Digest_length (msg : List Nat) : (md5Digest msg).length = 16 := by
  simp [md5Digest, toLe4]

/-- Every byte of the MD5 digest is below 256. -/
lemma md5Digest_bytes_lt (msg : List Nat) : ∀ b ∈ md5Digest msg, b < 256 := by
  intro b hb
  simp only [md5Digest, toLe4, List.mem_append, List.mem_cons,
    List.not_mem_nil, or_false] at hb
  rcases hb with (h | h | h | h) | (h | h | h | h) | (h | h | h | h) | (h | h | h | h) <;>
    omega

/-- Hex encoding yields two characters per byte. -/
lemma hexChars_length (bs : List Nat) :
    (bs.foldr (fun b acc => hexDigit (b / 16) :: hexDigit (b % 16) :: acc)
      []).length = 2 * bs.length := by
  induction bs with
  | nil => rfl
  | cons b rest ih => simp [ih]; omega

/-- The hex encoding of `bs` has length `2 * bs.length`. -/
lemma hexEncode_length (bs : List Nat) : (hexEncode bs).length = 2 * bs.length := by
  simpa [hexEncode, String.length] using hexChars_length bs

/-- `hexDigit` of a nibble is a hexadecimal character. -/
lemma hexDigit_hex (n : Nat) (h : n < 16) : isHexChar (hexDigit n) = true := by
  have key : ∀ m : Fin 16, isHexChar (hexDigit m.val) = true := by decide
  exact key ⟨n, h⟩

/-- Hex encoding of bytes below 256 produces only hexadecimal
characters. -/
lemma hexEncode_chars (bs : List Nat) (hb : ∀ b ∈ bs, b < 256) :
    ∀ c ∈ (hexEncode bs).data, isHexChar c = true := by
  induction bs with
  | nil => simp [hexEncode]
  | cons b rest ih =>
    intro c hc
    have hblt : b < 256 := hb b (by simp)
    simp only [hexEncode, List.foldr, List.mem_cons] at hc
    rcases hc with h | h | h
    · subst h; exact hexDigit_hex _ (by omega)
    · subst h; exact hexDigit_hex _ (by omega)
    · exact ih (fun x hx => hb x (by simp [hx])) c h

/-- C8. The checksum calculator is deterministic: any two successful runs
over identical byte content return the identical digest string, and that
digest is a fixed-length (32-character) string of hexadecimal digits, so
the pair carries no structure beyond equality. -/
theorem calculateFileChecksum_deterministic
    (o1 r1 o2 r2 : Bool) (b1 b2 : List Nat) (s1 s2 : String)
    (hb : b1 = b2)
    (h1 : calculateFileChecksum o1 r1 b1 = .ok s1)
    (h2 : calculateFileChecksum o2 r2 b2 = .ok s2) :
    s1 = s2 ∧ s1.length = 32 ∧ ∀ c ∈ s1.data, isHexChar c = true := by
  have e1 : s1 = hexEncode (md5Digest b1) := by
    unfold calculateFileChecksum at h1
    split_ifs at h1
    simp_all
  have e2 : s2 = hexEncode (md5Digest b2) := by
    unfold calculateFileChecksum at h2
    split_ifs at h2
    simp_all
  subst hb
  refine ⟨by rw [e1, e2], ?_, ?_⟩
  · rw [e1, hexEncode_length, md5Digest_length]
  · rw [e1]; exact hexEncode_chars _ (md5Digest_bytes_lt b1)

/-- C8 witness: two successful runs over the same two-byte content agree
on a 32-character hexadecimal digest. -/
theorem calculateFileChecksum_deterministic_witness :
    hexEncode (md5Digest [1, 2]) = hexEncode (md5Digest [1, 2])
    ∧ (hexEncode (md5Digest [1, 2])).length = 32
    ∧ ∀ c ∈ (hexEncode (md5Digest [1, 2])).data, isHexChar c = true :=
  calculateFileChecksum_deterministic true true true true [1, 2] [1, 2]
    (hexEncode (md5Digest [1, 2])) (hexEncode (md5Digest [1, 2])) rfl rfl rfl

end AlternateAssets
